import Mathlib

/-!
Verification of the CloudAuthN SAML login pipeline.

Go strings and byte slices are modelled as `List Nat` (byte values).
ASCII string literals are embedded with `gostr`, mapping each character to
its code point; all literals appearing in the sources are ASCII, where this
agrees with Go's UTF-8 byte representation.

External collaborators (the browser, the STS endpoint, the filesystem,
`compress/flate`) are modelled as parameters; everything the repository
itself computes is embedded as executable definitions below.
-/

namespace CloudAuthN

/-- Embed an ASCII string literal as a Go byte string. -/
def gostr (s : String) : List Nat := s.data.map Char.toNat

/-- `strings.Contains s sub`: `sub` occurs as a contiguous infix of `s`. -/
def containsSub (s sub : List Nat) : Bool := decide (sub <:+: s)

/-- `strings.HasPrefix s pre`. -/
def hasPrefixGo (s pre : List Nat) : Bool := pre.isPrefixOf s

/-- `strings.HasSuffix s suf`. -/
def hasSuffixGo (s suf : List Nat) : Bool := suf.isSuffixOf s

/-- Find the first occurrence of `sep` in `s`; return the part before it and
the part after it.  Used to model `strings.Split`. -/
def splitFirst (sep : List Nat) : List Nat → Option (List Nat × List Nat)
  | [] => if sep.isPrefixOf ([] : List Nat) then some ([], []) else none
  | c :: cs =>
    if sep.isPrefixOf (c :: cs) then some ([], (c :: cs).drop sep.length)
    else (splitFirst sep cs).map (fun pr => (c :: pr.1, pr.2))

/-- Fuel-driven worker for `splitOnSub`; the fuel `s.length` always
suffices because every found separator consumes at least one byte. -/
def splitOnSubAux (sep : List Nat) : Nat → List Nat → List (List Nat)
  | 0, s => [s]
  | fuel + 1, s =>
    match splitFirst sep s with
    | none => [s]
    | some (p, r) => p :: splitOnSubAux sep fuel r

/-- `strings.Split s sep` for a non-empty separator: all the substrings of
`s` between non-overlapping occurrences of `sep`, scanned left to right.
(The sources only ever split on the non-empty separators `","`, `":"`,
`"\n"` and `"SAMLResponse="`; the empty-separator behaviour of Go's
`strings.Split` is out of use and modelled as the identity split.) -/
def splitOnSub (s sep : List Nat) : List (List Nat) :=
  if sep = [] then [s] else splitOnSubAux sep s.length s

/-- Go's ASCII whitespace set (`asciiSpace` in the `strings` package):
tab, newline, vertical tab, form feed, carriage return, space. -/
def isASCIISpace (c : Nat) : Bool :=
  c = 9 ∨ c = 10 ∨ c = 11 ∨ c = 12 ∨ c = 13 ∨ c = 32

/-- `strings.TrimSpace`, modelled on its ASCII fast path (all content in
the claims is ASCII; multi-byte Unicode whitespace does not occur in
byte-level credential files or ARN strings). -/
def trimSpaceGo (s : List Nat) : List Nat :=
  ((s.dropWhile isASCIISpace).reverse.dropWhile isASCIISpace).reverse

/-- A byte belonging to the cutset `"[]"`. -/
def isBracket (c : Nat) : Bool := c = 91 ∨ c = 93

/-- `strings.Trim s "[]"`: remove all leading and trailing `[` and `]`. -/
def trimBrackets (s : List Nat) : List Nat :=
  ((s.dropWhile isBracket).reverse.dropWhile isBracket).reverse

/-! ### `encoding/base64` (StdEncoding), as used by the sources -/

/-- The standard base64 alphabet. -/
def b64Alphabet : List Nat :=
  gostr "ABCDEFGHIJKLMNOPQRSTUVWXYZabcdefghijklmnopqrstuvwxyz0123456789+/"

/-- The byte of the base64 digit with value `n` (`n < 64`). -/
def encB64 (n : Nat) : Nat := b64Alphabet.getD n 0

/-- First index of byte `c` in a list, if present. -/
def indexInList (c : Nat) : List Nat → Option Nat
  | [] => none
  | a :: as => if a = c then some 0 else (indexInList c as).map (· + 1)

/-- The value of a base64 digit byte, if it is one. -/
def decB64 (c : Nat) : Option Nat := indexInList c b64Alphabet

/-- `base64.StdEncoding.EncodeToString`, three input bytes per group, with
`=` (byte 61) padding on the final partial group. -/
def b64EncodeCore : List Nat → List Nat
  | b1 :: b2 :: b3 :: rest =>
    encB64 (b1 / 4) :: encB64 ((b1 % 4) * 16 + b2 / 16) ::
      encB64 ((b2 % 16) * 4 + b3 / 64) :: encB64 (b3 % 64) :: b64EncodeCore rest
  | [b1, b2] => [encB64 (b1 / 4), encB64 ((b1 % 4) * 16 + b2 / 16), encB64 ((b2 % 16) * 4), 61]
  | [b1] => [encB64 (b1 / 4), encB64 ((b1 % 4) * 16), 61, 61]
  | [] => []

/-- `base64.StdEncoding.EncodeToString`. -/
def base64StdEncode (bs : List Nat) : List Nat := b64EncodeCore bs

/-- Decode base64 four-digit groups; `=` padding is only accepted at the
very end, and (as in Go's non-strict decoder) unused trailing bits are
ignored.  `Except.error` models `base64.CorruptInputError`. -/
def b64DecodeGroups : List Nat → Except Unit (List Nat)
  | [] => .ok []
  | c1 :: c2 :: c3 :: c4 :: rest =>
    match decB64 c1, decB64 c2 with
    | some v1, some v2 =>
      if c3 = 61 ∧ c4 = 61 then
        if rest = [] then .ok [v1 * 4 + v2 / 16] else .error ()
      else if c4 = 61 then
        match decB64 c3 with
        | some v3 =>
          if rest = [] then .ok [v1 * 4 + v2 / 16, (v2 % 16) * 16 + v3 / 4] else .error ()
        | none => .error ()
      else
        match decB64 c3, decB64 c4 with
        | some v3, some v4 =>
          match b64DecodeGroups rest with
          | .ok bs => .ok ((v1 * 4 + v2 / 16) :: ((v2 % 16) * 16 + v3 / 4) :: ((v3 % 4) * 64 + v4) :: bs)
          | .error e => .error e
        | _, _ => .error ()
    | _, _ => .error ()
  | _ => .error ()

/-- `base64.StdEncoding.DecodeString`: Go's decoder skips `\r` and `\n`
bytes, then consumes four-digit groups. -/
def base64StdDecode (s : List Nat) : Except Unit (List Nat) :=
  b64DecodeGroups (s.filter (fun c => ¬(c = 10 ∨ c = 13)))

/-! ### `net/url` query escaping, as used by the sources -/

/-- The value of an ASCII hex digit byte, if it is one (`ishex`/`unhex`
in `net/url`). -/
def unhexNat (c : Nat) : Option Nat :=
  if 48 ≤ c ∧ c ≤ 57 then some (c - 48)
  else if 97 ≤ c ∧ c ≤ 102 then some (c - 97 + 10)
  else if 65 ≤ c ∧ c ≤ 70 then some (c - 65 + 10)
  else none

/-- `url.QueryUnescape`: `%XX` hex escapes become the named byte, `+`
becomes space; a malformed escape is an error (`url.EscapeError`). -/
def queryUnescapeCore : List Nat → Except Unit (List Nat)
  | [] => .ok []
  | c :: rest =>
    if c = 37 then
      match rest with
      | h1 :: h2 :: rest2 =>
        match unhexNat h1, unhexNat h2 with
        | some a, some b => (queryUnescapeCore rest2).map (fun r => (a * 16 + b) :: r)
        | _, _ => .error ()
      | _ => .error ()
    else if c = 43 then (queryUnescapeCore rest).map (fun r => 32 :: r)
    else (queryUnescapeCore rest).map (fun r => c :: r)

/-- `shouldEscape(c, encodeQueryComponent)`: everything except ASCII
alphanumerics and `-`, `_`, `.`, `~` is escaped in a query component. -/
def shouldEscapeQuery (c : Nat) : Bool :=
  ¬((65 ≤ c ∧ c ≤ 90) ∨ (97 ≤ c ∧ c ≤ 122) ∨ (48 ≤ c ∧ c ≤ 57) ∨
    c = 45 ∨ c = 95 ∨ c = 46 ∨ c = 126)

/-- The upper-case hex digit byte of `n < 16` (`"0123456789ABCDEF"`). -/
def upperHexDigit (n : Nat) : Nat := if n < 10 then 48 + n else 55 + n

/-- `url.QueryEscape`: space becomes `+`, unreserved bytes are copied,
every other byte becomes `%XX` with upper-case hex. -/
def queryEscapeGo : List Nat → List Nat
  | [] => []
  | c :: rest =>
    (if c = 32 then [43]
     else if shouldEscapeQuery c then [37, upperHexDigit (c / 16), upperHexDigit (c % 16)]
     else [c]) ++ queryEscapeGo rest

/-! ### Data model (`internal/cloud-providers/aws`, types file) -/

/-- `AwsRole`: an extracted role/principal ARN pair. -/
structure AwsRole where
  roleArn : List Nat
  principalArn : List Nat
deriving DecidableEq

/-- `AWSResponse`: the extraction result sent through the channel. -/
structure AWSResponse where
  roles : List AwsRole
  samlResponse : List Nat
deriving DecidableEq

/-- `AwsCredentialsEntry`.  The `Expiration time.Time` field is modelled by
its `time.RFC3339` rendering, which is the only view of it the sources use
(`entry.Expiration.Format(time.RFC3339)`). -/
structure AwsCredentialsEntry where
  accessKeyID : List Nat
  secretAccessKey : List Nat
  sessionToken : List Nat
  expirationRFC3339 : List Nat
deriving DecidableEq

/-! ### Claims parsing (`ParseRolesFromSamlResponse`, aws.go lines 135-180)

The goquery call
`doc.Find("Attribute[Name='https://aws.amazon.com/SAML/Attributes/Role'] > AttributeValue")`
is modelled by a parameter `findRoleValues : List Nat → List (List Nat)`
giving the text of each matching AttributeValue node of the decoded
document, in document order; the per-node body of the `Each` closure is
embedded concretely below.  (`goquery.NewDocumentFromReader` over an
in-memory `bytes.Reader` cannot fail: the tolerant HTML parser accepts
every byte sequence, so the error branch at lines 159-161 is dead.) -/

/-- The body of the `Each` closure (aws.go lines 164-177): split the node
text on `","`, classify by which part contains `":role/"`, trim both.
`none` models the index-out-of-range panic of `parts[1]` when the text
contains no comma. -/
def classifyRoleValue (roleAndPrincipal : List Nat) : Option AwsRole :=
  match splitOnSub roleAndPrincipal (gostr ",") with
  | p0 :: p1 :: _ =>
    if containsSub p0 (gostr ":role/") then
      some ⟨trimSpaceGo p0, trimSpaceGo p1⟩
    else
      some ⟨trimSpaceGo p1, trimSpaceGo p0⟩
  | _ => none

/-- The `Each` loop over all matched AttributeValue texts, in document
order; `none` when any iteration panics. -/
def parseRoleGrants : List (List Nat) → Option (List AwsRole)
  | [] => some []
  | v :: vs =>
    match classifyRoleValue v, parseRoleGrants vs with
    | some g, some gs => some (g :: gs)
    | _, _ => none

/-- Outcome of `ParseRolesFromSamlResponse`: a typed Go error return, a
successful `(roles, samlResponse)` return, or a runtime panic. -/
inductive ParseOutcome where
  | ok (roles : List AwsRole) (samlResponse : List Nat)
  | err
  | crash
deriving DecidableEq

/-- `ParseRolesFromSamlResponse` (aws.go lines 135-180): outer base64
decode, URL decode, take the piece after `"SAMLResponse="` at index `[1]`
of the split (a panic when the marker is absent), inner base64 decode,
then the claims loop over the matched nodes. -/
def parseRolesFromSamlResponse (findRoleValues : List Nat → List (List Nat))
    (assertion : List Nat) : ParseOutcome :=
  match base64StdDecode assertion with
  | .error _ => .err
  | .ok decodedBytes =>
    match queryUnescapeCore decodedBytes with
    | .error _ => .err
    | .ok samlResponseUriDecoded =>
      match splitOnSub samlResponseUriDecoded (gostr "SAMLResponse=") with
      | _ :: samlBase64Encoded :: _ =>
        match base64StdDecode samlBase64Encoded with
        | .error _ => .err
        | .ok samlBase64Decoded =>
          match parseRoleGrants (findRoleValues samlBase64Decoded) with
          | some roles => .ok roles samlBase64Encoded
          | none => .crash
      | _ => .crash

/-! ### Browser event correlator (`InterceptChromeAuthRequest`,
aws.go lines 190-215) -/

/-- One entry of `Request.PostDataEntries`. -/
structure PostDataEntry where
  bytes : List Nat
deriving DecidableEq

/-- The parts of `network.Request` the correlator reads.
`postDataEntries = none` models a nil slice; `some l` a non-nil slice. -/
structure Request where
  method : List Nat
  url : List Nat
  postDataEntries : Option (List PostDataEntry)
deriving DecidableEq

/-- A network event delivered to the listener: either a
`*network.EventRequestWillBeSent` or any other event type (which falls
through the type switch). -/
inductive NetworkEvent where
  | requestWillBeSent (request : Request)
  | otherEvent
deriving DecidableEq

/-- What one call of `InterceptChromeAuthRequest` does with one event:
nothing, a runtime panic, a `log.Fatalf` process exit, or
`cancel()` followed by sending a response on the channel. -/
inductive InterceptEffect where
  | ignore
  | crash
  | fatal
  | emit (response : AWSResponse)
deriving DecidableEq

/-- `InterceptChromeAuthRequest` on a single event.  The guard condition is
exactly the source's: method `"POST"`, URL containing
`"https://signin.aws.amazon.com/saml"`, and a non-nil `PostDataEntries`
slice; `request.PostDataEntries[0]` then panics when that slice is empty,
and a `ParseRolesFromSamlResponse` error is a `log.Fatalf`. -/
def interceptChromeAuthRequest (findRoleValues : List Nat → List (List Nat))
    (ev : NetworkEvent) : InterceptEffect :=
  match ev with
  | .otherEvent => .ignore
  | .requestWillBeSent request =>
    if request.method = gostr "POST" ∧
        containsSub request.url (gostr "https://signin.aws.amazon.com/saml") = true ∧
        request.postDataEntries ≠ none then
      match request.postDataEntries with
      | none => .ignore
      | some [] => .crash
      | some (entry :: _) =>
        if entry.bytes ≠ [] then
          match parseRolesFromSamlResponse findRoleValues entry.bytes with
          | .ok roles saml => .emit ⟨roles, saml⟩
          | .err => .fatal
          | .crash => .crash
        else .ignore
    else .ignore

/-- The filter predicate of the specification: an outgoing-request event
whose method is POST, whose URL matches the SAML consumer endpoint, and
which carries a (first) body entry with non-empty content. -/
def matchesFilter (ev : NetworkEvent) : Bool :=
  match ev with
  | .otherEvent => false
  | .requestWillBeSent request =>
    decide (request.method = gostr "POST") &&
      containsSub request.url (gostr "https://signin.aws.amazon.com/saml") &&
      (match request.postDataEntries with
       | some (entry :: _) => decide (entry.bytes ≠ [])
       | _ => false)

/-- State of one run of the listener over the event stream. -/
structure RunState where
  cancelled : Bool
  delivered : List AWSResponse
  terminated : Bool
deriving DecidableEq

/-- Drive the listener over a stream of events.  Cancelling the chromedp
context detaches the `ListenTarget` listener (part_000 lines 94-100), so
events arriving after `cancel()` are no longer delivered to the callback;
a panic or `log.Fatalf` ends the process. -/
def driveEvents (findRoleValues : List Nat → List (List Nat)) :
    List NetworkEvent → RunState → RunState
  | [], st => st
  | ev :: evs, st =>
    if st.terminated then st
    else if st.cancelled then driveEvents findRoleValues evs st
    else
      match interceptChromeAuthRequest findRoleValues ev with
      | .ignore => driveEvents findRoleValues evs st
      | .crash => { st with terminated := true }
      | .fatal => { st with terminated := true }
      | .emit r =>
        driveEvents findRoleValues evs
          { st with cancelled := true, delivered := st.delivered ++ [r] }

/-- A full run of the correlator from the initial state. -/
def runCorrelator (findRoleValues : List Nat → List (List Nat))
    (events : List NetworkEvent) : RunState :=
  driveEvents findRoleValues events ⟨false, [], false⟩

/-! ### Go map model

Go's `map[string]T` is modelled as an association list with
insert-or-replace-in-place semantics; Go's map iteration order is
unspecified, so insertion order is taken as one admissible iteration
order wherever the sources range over a map. -/

/-- `m[k] = v`: replace the value at an existing key in place, or append
a new binding. -/
def mapSet {V : Type} : List (List Nat × V) → List Nat → V → List (List Nat × V)
  | [], k, v => [(k, v)]
  | (k1, v1) :: rest, k, v =>
    if k1 = k then (k, v) :: rest else (k1, v1) :: mapSet rest k v

/-- `m[k]` with its presence bit. -/
def mapLookup {V : Type} : List (List Nat × V) → List Nat → Option V
  | [], _ => none
  | (k1, v1) :: rest, k => if k1 = k then some v1 else mapLookup rest k

/-- `m[k]` defaulting to the zero value, as a Go map read does. -/
def mapGetD {V : Type} (m : List (List Nat × V)) (k : List Nat) (d : V) : V :=
  (mapLookup m k).getD d

/-! ### Credentials file update (`UpdateAWSCredentialsFile`,
aws.go lines 32-86)

The home-directory lookup and the file read/write are the persistence
collaborator's I/O; the content transformation they surround is embedded
as a pure function from the existing file content and the incoming
credentials mapping to the written content. -/

/-- The replacement entry lines written for one credentials mapping value
(aws.go lines 60-69): key id, secret, expiration, and the session token
only when non-empty. -/
def renderCredentialEntry (e : AwsCredentialsEntry) : List (List Nat) :=
  [gostr "aws_access_key_id=" ++ e.accessKeyID,
   gostr "aws_secret_access_key=" ++ e.secretAccessKey,
   gostr "expiration=" ++ e.expirationRFC3339] ++
  (if e.sessionToken ≠ [] then [gostr "aws_session_token=" ++ e.sessionToken] else [])

/-- The read loop (aws.go lines 49-57): each line is trimmed; a trimmed
line bracketed by `[` and `]` starts a profile (named by trimming the
bracket cutset) with an empty entry list, every other line is appended to
the current profile's entries; lines before any header (the current
profile is the empty string) are dropped. -/
def parseProfilesLoop : List (List Nat) → List Nat →
    List (List Nat × List (List Nat)) → List (List Nat × List (List Nat))
  | [], _, m => m
  | line :: rest, currentProfile, m =>
    let t := trimSpaceGo line
    if hasPrefixGo t (gostr "[") ∧ hasSuffixGo t (gostr "]") then
      parseProfilesLoop rest (trimBrackets t) (mapSet m (trimBrackets t) [])
    else if currentProfile ≠ [] then
      parseProfilesLoop rest currentProfile
        (mapSet m currentProfile (mapGetD m currentProfile [] ++ [t]))
    else parseProfilesLoop rest currentProfile m

/-- Parse an existing credentials file content into its profile map
(aws.go lines 44-57). -/
def parseProfilesContent (content : List Nat) : List (List Nat × List (List Nat)) :=
  parseProfilesLoop (splitOnSub content (gostr "\n")) [] []

/-- The update/insert loop (aws.go lines 60-69). -/
def mergeCredentials (m : List (List Nat × List (List Nat)))
    (credentials : List (List Nat × AwsCredentialsEntry)) :
    List (List Nat × List (List Nat)) :=
  credentials.foldl (fun m pe => mapSet m pe.1 (renderCredentialEntry pe.2)) m

/-- The write loop (aws.go lines 72-78): `[profile]\n` then each entry
line followed by `\n`. -/
def serializeProfiles (m : List (List Nat × List (List Nat))) : List Nat :=
  (m.map (fun pe =>
    gostr "[" ++ pe.1 ++ gostr "]\n" ++ (pe.2.map (fun e => e ++ gostr "\n")).flatten)).flatten

/-- `UpdateAWSCredentialsFile` as a content transformation: read existing
profiles, update or insert the given credentials, serialize. -/
def updateAWSCredentialsFileContent (content : List Nat)
    (credentials : List (List Nat × AwsCredentialsEntry)) : List Nat :=
  serializeProfiles (mergeCredentials (parseProfilesContent content) credentials)

/-! ### `AssumeRoleWithSAML` (aws.go lines 101-123)

The STS call itself is the credential-exchange collaborator; what the
repository computes is the request it sends. -/

/-- `sts.AssumeRoleWithSAMLInput` as filled in by `AssumeRoleWithSAML`. -/
structure AssumeRoleWithSAMLInput where
  roleArn : List Nat
  principalArn : List Nat
  samlAssertion : List Nat
  durationSeconds : Nat
deriving DecidableEq

/-- The input struct built at aws.go lines 109-114: the three caller
strings plus `DurationSeconds: aws.Int64(3600 * 12)`. -/
def mkAssumeRoleWithSAMLInput (roleArn principalArn samlAssertion : List Nat) :
    AssumeRoleWithSAMLInput :=
  ⟨roleArn, principalArn, samlAssertion, 3600 * 12⟩

/-! ### Session orchestrator (`MicrosoftToAws`, part_000 lines 20-72) -/

/-- The account identifier derivation of part_000 line 55:
`strings.Split(role.RoleArn, ":")[4]`, `none` modelling the
index-out-of-range panic when fewer than five segments exist. -/
def deriveAccountId (roleArn : List Nat) : Option (List Nat) :=
  (splitOnSub roleArn (gostr ":")).get? 4

/-- The role-exchange loop of part_000 lines 48-63.  The STS call is the
parameter `exchange` (`none` = the error branch, which logs and skips the
role); each success stores its entry under the derived account id.
`none` overall models the panic on an ARN with too few segments. -/
def assumeRolesLoop (exchange : AwsRole → Option AwsCredentialsEntry) :
    List AwsRole → List (List Nat × AwsCredentialsEntry) →
    Option (List (List Nat × AwsCredentialsEntry))
  | [], acc => some acc
  | role :: rest, acc =>
    match exchange role with
    | none => assumeRolesLoop exchange rest acc
    | some entry =>
      match deriveAccountId role.roleArn with
      | none => none
      | some accountId => assumeRolesLoop exchange rest (mapSet acc accountId entry)

/-! ### Login request builder (`GenerateSAMLLoginURL`, part_002 lines
25-43, and `RawDeflateBase64Encode`, part_001 lines 18-44)

`uuid.New().String()` and `time.Now().UTC().Format(time.RFC3339)` are
environment inputs, passed as the parameters `id` and `now`; the
`compress/flate` writer is the compression collaborator, passed as the
function `deflate` (writing to an in-memory `bytes.Buffer` cannot fail,
so the error returns of `RawDeflateBase64Encode` are dead). -/

/-- The authentication-request template of part_002 lines 28-33 with its
four substituted values, byte for byte. -/
def samlRequestXML (id now acsURL appIdUri : List Nat) : List Nat :=
  gostr "\n        <samlp:AuthnRequest xmlns=\"urn:oasis:names:tc:SAML:2.0:metadata\" ID=\"id" ++
  id ++ gostr "\" Version=\"2.0\" IssueInstant=\"" ++ now ++
  gostr "\" IsPassive=\"false\" AssertionConsumerServiceURL=\"" ++ acsURL ++
  gostr "\" xmlns:samlp=\"urn:oasis:names:tc:SAML:2.0:protocol\">\n            <Issuer xmlns=\"urn:oasis:names:tc:SAML:2.0:assertion\">" ++
  appIdUri ++
  gostr "</Issuer>\n            <samlp:NameIDPolicy Format=\"urn:oasis:names:tc:SAML:1.1:nameid-format:emailAddress\"></samlp:NameIDPolicy>\n        </samlp:AuthnRequest>\n        "

/-- `RawDeflateBase64Encode`: raw deflate, then standard base64. -/
def rawDeflateBase64Encode (deflate : List Nat → List Nat) (input : List Nat) : List Nat :=
  base64StdEncode (deflate input)

/-- `GenerateSAMLLoginURL`: template, raw-deflate-base64 encoding, and the
final URL `https://login.microsoftonline.com/{tenant}/saml2?SAMLRequest={escaped}`. -/
def generateSAMLLoginURL (deflate : List Nat → List Nat) (id now : List Nat)
    (appIdUri tenantId acsURL : List Nat) : List Nat :=
  gostr "https://login.microsoftonline.com/" ++ tenantId ++
  gostr "/saml2?SAMLRequest=" ++
  queryEscapeGo (rawDeflateBase64Encode deflate (samlRequestXML id now acsURL appIdUri))

/-- The fixed SAML consumer endpoint the orchestrator passes for both the
audience URI and the consumer URL (part_000 line 31). -/
def awsSamlEndpoint : List Nat := gostr "https://signin.aws.amazon.com/saml"

/-! ### Concrete fixtures used by witnesses and counterexamples -/

/-- A selector stub for decoded documents containing no role-claim
attribute nodes. -/
def findNoRoleValues : List Nat → List (List Nat) := fun _ => []

/-- An intercepted POST body whose outer base64 decoding yields
`"SAMLResponse=PHgvPg=="` (inner payload `"PHgvPg=="`, the base64 of
`"<x/>"`). -/
def goodBodyAssertion : List Nat := gostr "U0FNTFJlc3BvbnNlPVBIZ3ZQZz09"

/-- A filter-matching POST event carrying `goodBodyAssertion`. -/
def goodEvent : NetworkEvent :=
  .requestWillBeSent
    ⟨gostr "POST", gostr "https://signin.aws.amazon.com/saml", some [⟨goodBodyAssertion⟩]⟩

/-- A filter-matching POST event whose body is not valid base64. -/
def badBodyEvent : NetworkEvent :=
  .requestWillBeSent
    ⟨gostr "POST", gostr "https://signin.aws.amazon.com/saml", some [⟨gostr "!!!"⟩]⟩

/-- A POST to the SAML endpoint whose `PostDataEntries` slice is non-nil
but empty. -/
def emptyEntriesEvent : NetworkEvent :=
  .requestWillBeSent
    ⟨gostr "POST", gostr "https://signin.aws.amazon.com/saml", some []⟩

/-- An existing credentials file whose unrelated profile `keep` has a
tab-indented entry line. -/
def c9Content : List Nat := gostr "[keep]\n\tk=v\n[upd]\na=b"

/-- An incoming credential mapping that names only the profile `upd`. -/
def c9Creds : List (List Nat × AwsCredentialsEntry) :=
  [(gostr "upd", ⟨gostr "AK", gostr "SK", [], gostr "2024-01-01T00:00:00Z"⟩)]

/-! ## Helper lemmas -/

theorem encB64_lt (v : Nat) : encB64 v < 256 := by
  by_cases h : v < 64
  · have hb : ∀ w, w < 64 → encB64 w < 256 := by decide
    exact hb v h
  · unfold encB64
    rw [List.getD_eq_default]
    · omega
    · simp only [not_lt] at h
      simpa [b64Alphabet, gostr] using h

theorem encB64_ne10 (v : Nat) : encB64 v ≠ 10 := by
  by_cases h : v < 64
  · have hb : ∀ w, w < 64 → encB64 w ≠ 10 := by decide
    exact hb v h
  · unfold encB64
    rw [List.getD_eq_default]
    · omega
    · simp only [not_lt] at h
      simpa [b64Alphabet, gostr] using h

theorem encB64_ne13 (v : Nat) : encB64 v ≠ 13 := by
  by_cases h : v < 64
  · have hb : ∀ w, w < 64 → encB64 w ≠ 13 := by decide
    exact hb v h
  · unfold encB64
    rw [List.getD_eq_default]
    · omega
    · simp only [not_lt] at h
      simpa [b64Alphabet, gostr] using h

theorem encB64_ne61 (v : Nat) : encB64 v ≠ 61 := by
  by_cases h : v < 64
  · have hb : ∀ w, w < 64 → encB64 w ≠ 61 := by decide
    exact hb v h
  · unfold encB64
    rw [List.getD_eq_default]
    · omega
    · simp only [not_lt] at h
      simpa [b64Alphabet, gostr] using h

theorem decB64_encB64 (v : Nat) (h : v < 64) : decB64 (encB64 v) = some v := by
  have hb : ∀ w, w < 64 → decB64 (encB64 w) = some w := by decide
  exact hb v h

theorem b64Encode_no_newline (bs : List Nat) :
    ∀ c ∈ b64EncodeCore bs, ¬(c = 10 ∨ c = 13) := by
  have hx : ∀ v, ¬(encB64 v = 10 ∨ encB64 v = 13) :=
    fun v h => h.elim (encB64_ne10 v) (encB64_ne13 v)
  induction bs using b64EncodeCore.induct with
  | case1 b1 b2 b3 rest ih =>
    intro c hc
    simp only [b64EncodeCore, List.mem_cons] at hc
    rcases hc with rfl | rfl | rfl | rfl | hc
    · exact hx _
    · exact hx _
    · exact hx _
    · exact hx _
    · exact ih c hc
  | case2 b1 b2 =>
    intro c hc
    simp only [b64EncodeCore, List.mem_cons] at hc
    rcases hc with rfl | rfl | rfl | rfl | hc
    · exact hx _
    · exact hx _
    · exact hx _
    · decide
    · simp at hc
  | case3 b1 =>
    intro c hc
    simp only [b64EncodeCore, List.mem_cons] at hc
    rcases hc with rfl | rfl | rfl | rfl | hc
    · exact hx _
    · exact hx _
    · decide
    · decide
    · simp at hc
  | case4 =>
    intro c hc
    simp [b64EncodeCore] at hc

theorem b64Encode_filter (bs : List Nat) :
    (b64EncodeCore bs).filter (fun c => ¬(c = 10 ∨ c = 13)) = b64EncodeCore bs := by
  rw [List.filter_eq_self]
  intro a ha
  simpa using b64Encode_no_newline bs a ha

theorem b64Encode_bytes (bs : List Nat) : ∀ c ∈ b64EncodeCore bs, c < 256 := by
  induction bs using b64EncodeCore.induct with
  | case1 b1 b2 b3 rest ih =>
    intro c hc
    simp only [b64EncodeCore, List.mem_cons] at hc
    rcases hc with rfl | rfl | rfl | rfl | hc
    · exact encB64_lt _
    · exact encB64_lt _
    · exact encB64_lt _
    · exact encB64_lt _
    · exact ih c hc
  | case2 b1 b2 =>
    intro c hc
    simp only [b64EncodeCore, List.mem_cons] at hc
    rcases hc with rfl | rfl | rfl | rfl | hc
    · exact encB64_lt _
    · exact encB64_lt _
    · exact encB64_lt _
    · omega
    · simp at hc
  | case3 b1 =>
    intro c hc
    simp only [b64EncodeCore, List.mem_cons] at hc
    rcases hc with rfl | rfl | rfl | rfl | hc
    · exact encB64_lt _
    · exact encB64_lt _
    · omega
    · omega
    · simp at hc
  | case4 =>
    intro c hc
    simp [b64EncodeCore] at hc

theorem b64DecodeGroups_encode (bs : List Nat) (h : ∀ b ∈ bs, b < 256) :
    b64DecodeGroups (b64EncodeCore bs) = .ok bs := by
  induction bs using b64EncodeCore.induct with
  | case1 b1 b2 b3 rest ih =>
    have h1 : b1 < 256 := h b1 (by simp)
    have h2 : b2 < 256 := h b2 (by simp)
    have h3 : b3 < 256 := h b3 (by simp)
    have e1 := decB64_encB64 (b1 / 4) (by omega)
    have e2 := decB64_encB64 ((b1 % 4) * 16 + b2 / 16) (by omega)
    have e3 := decB64_encB64 ((b2 % 16) * 4 + b3 / 64) (by omega)
    have e4 := decB64_encB64 (b3 % 64) (by omega)
    have ihr := ih (fun b hb => h b (by simp [hb]))
    have k1 : b1 / 4 * 4 + (b1 % 4 * 16 + b2 / 16) / 16 = b1 := by omega
    have k2 : (b1 % 4 * 16 + b2 / 16) % 16 * 16 + (b2 % 16 * 4 + b3 / 64) / 4 = b2 := by
      omega
    have k3 : (b2 % 16 * 4 + b3 / 64) % 4 * 64 + b3 % 64 = b3 := by omega
    simp [b64EncodeCore, b64DecodeGroups, e1, e2, e3, e4, encB64_ne61, ihr, k1, k2, k3]
  | case2 b1 b2 =>
    have h1 : b1 < 256 := h b1 (by simp)
    have h2 : b2 < 256 := h b2 (by simp)
    have e1 := decB64_encB64 (b1 / 4) (by omega)
    have e2 := decB64_encB64 ((b1 % 4) * 16 + b2 / 16) (by omega)
    have e3 := decB64_encB64 ((b2 % 16) * 4) (by omega)
    simp [b64EncodeCore, b64DecodeGroups, e1, e2, e3, encB64_ne61]
    omega
  | case3 b1 =>
    have h1 : b1 < 256 := h b1 (by simp)
    have e1 := decB64_encB64 (b1 / 4) (by omega)
    have e2 := decB64_encB64 ((b1 % 4) * 16) (by omega)
    simp [b64EncodeCore, b64DecodeGroups, e1, e2]
    omega
  | case4 =>
    rfl

/-- The base64 stage of the encoding is reversed exactly by the decoder:
`DecodeString (EncodeToString bs) = bs` for byte inputs. -/
theorem base64_roundtrip (bs : List Nat) (h : ∀ b ∈ bs, b < 256) :
    base64StdDecode (base64StdEncode bs) = .ok bs := by
  unfold base64StdDecode base64StdEncode
  rw [b64Encode_filter]
  exact b64DecodeGroups_encode bs h

theorem unhex_upperHex (n : Nat) (h : n < 16) :
    unhexNat (upperHexDigit n) = some n := by
  have hb : ∀ m, m < 16 → unhexNat (upperHexDigit m) = some m := by decide
  exact hb n h

/-- `url.QueryUnescape` is a left inverse of `url.QueryEscape` on byte
strings. -/
theorem queryEscape_roundtrip (bs : List Nat) (h : ∀ b ∈ bs, b < 256) :
    queryUnescapeCore (queryEscapeGo bs) = .ok bs := by
  induction bs with
  | nil => rfl
  | cons c rest ih =>
    have hc : c < 256 := h c (by simp)
    have ihr := ih (fun b hb => h b (by simp [hb]))
    by_cases h32 : c = 32
    · subst h32
      simp only [queryEscapeGo, if_pos rfl, List.singleton_append]
      rw [queryUnescapeCore.eq_def]
      simp [ihr, Except.map]
    · by_cases hesc : shouldEscapeQuery c = true
      · have hu1 : unhexNat (upperHexDigit (c / 16)) = some (c / 16) :=
          unhex_upperHex _ (by omega)
        have hu2 : unhexNat (upperHexDigit (c % 16)) = some (c % 16) :=
          unhex_upperHex _ (by omega)
        have hdiv : c / 16 * 16 + c % 16 = c := by omega
        simp only [queryEscapeGo, h32, if_false, hesc, if_true, if_neg h32]
        rw [queryUnescapeCore.eq_def]
        simp [hu1, hu2, ihr, hdiv, Except.map]
      · have h2 : shouldEscapeQuery c = false := by
          revert hesc
          cases shouldEscapeQuery c <;> simp
        simp only [shouldEscapeQuery] at h2
        simp only [decide_eq_false_iff_not, not_not] at h2
        have hne37 : c ≠ 37 := by omega
        have hne43 : c ≠ 43 := by omega
        simp only [queryEscapeGo, if_neg h32, if_neg hesc, List.singleton_append]
        rw [queryUnescapeCore.eq_def]
        simp [hne37, hne43, ihr, Except.map]

theorem containsSub_append_left (s t pat : List Nat) (h : containsSub t pat = true) :
    containsSub (s ++ t) pat = true := by
  unfold containsSub at h ⊢
  rw [decide_eq_true_eq] at h ⊢
  obtain ⟨u, v, huv⟩ := h
  exact ⟨s ++ u, v, by rw [← huv]; simp⟩

theorem containsSub_append_right (s t pat : List Nat) (h : containsSub s pat = true) :
    containsSub (s ++ t) pat = true := by
  unfold containsSub at h ⊢
  rw [decide_eq_true_eq] at h ⊢
  obtain ⟨u, v, huv⟩ := h
  exact ⟨u, v ++ t, by rw [← huv]; simp⟩

theorem containsSub_self (s : List Nat) : containsSub s s = true := by
  unfold containsSub
  rw [decide_eq_true_eq]

theorem driveEvents_detached (f : List Nat → List (List Nat))
    (evs : List NetworkEvent) (st : RunState) (hc : st.cancelled = true)
    (ht : st.terminated = false) : driveEvents f evs st = st := by
  induction evs with
  | nil => rfl
  | cons e evs ih => simp [driveEvents, hc, ht, ih]

theorem mapSet_lookup_ne {V : Type} (m : List (List Nat × V)) (k1 k2 : List Nat)
    (v : V) (h : k1 ≠ k2) : mapLookup (mapSet m k1 v) k2 = mapLookup m k2 := by
  induction m with
  | nil => simp [mapSet, mapLookup, h]
  | cons a m ih =>
    by_cases ha : a.1 = k1
    · simp [mapSet, ha, mapLookup, h]
    · simp only [mapSet, ha, if_false]
      by_cases ha2 : a.1 = k2
      · simp [mapLookup, ha2]
      · simp [mapLookup, ha2, ih]

theorem mergeCredentials_lookup_ne (m : List (List Nat × List (List Nat)))
    (creds : List (List Nat × AwsCredentialsEntry)) (p : List Nat)
    (h : ∀ pe ∈ creds, pe.1 ≠ p) :
    mapLookup (mergeCredentials m creds) p = mapLookup m p := by
  induction creds generalizing m with
  | nil => rfl
  | cons c cs ih =>
    have hc : c.1 ≠ p := h c (by simp)
    have hrest : ∀ pe ∈ cs, pe.1 ≠ p := fun pe hpe => h pe (by simp [hpe])
    simp only [mergeCredentials, List.foldl_cons]
    rw [show List.foldl (fun m pe => mapSet m pe.1 (renderCredentialEntry pe.2))
          (mapSet m c.1 (renderCredentialEntry c.2)) cs =
        mergeCredentials (mapSet m c.1 (renderCredentialEntry c.2)) cs from rfl]
    rw [ih _ hrest]
    exact mapSet_lookup_ne m c.1 p _ hc

theorem mapLookup_decomp {V : Type} (m : List (List Nat × V)) (k : List Nat) (v : V)
    (h : mapLookup m k = some v) : ∃ m1 m2, m = m1 ++ (k, v) :: m2 := by
  induction m with
  | nil => simp [mapLookup] at h
  | cons a m ih =>
    by_cases ha : a.1 = k
    · refine ⟨[], m, ?_⟩
      simp only [mapLookup, ha, if_pos rfl] at h
      obtain ⟨a1, a2⟩ := a
      simp only at ha
      cases h
      simp [ha]
    · simp only [mapLookup, ha, if_false] at h
      obtain ⟨m1, m2, hm⟩ := ih h
      exact ⟨a :: m1, m2, by simp [hm]⟩

theorem serializeProfiles_append (m1 m2 : List (List Nat × List (List Nat))) :
    serializeProfiles (m1 ++ m2) = serializeProfiles m1 ++ serializeProfiles m2 := by
  simp [serializeProfiles]

/-! ## Claim theorems -/

/-- C1: the claim says `ParseRolesFromSamlResponse` never crashes and
returns a typed error when the URL-decoded body lacks the marker
`SAMLResponse=`.  The code instead panics: on the assertion
`"aGVsbG8="` (the base64 of `"hello"`), both the outer base64 decode and
the URL decode succeed, the marker is absent, and
`strings.Split(..., "SAMLResponse=")[1]` indexes past the end of a
one-element slice. -/
theorem c1_missing_marker_panics :
    ∀ findRoleValues, parseRolesFromSamlResponse findRoleValues (gostr "aGVsbG8=") =
      ParseOutcome.crash := by
  intro findRoleValues
  rfl

/-- C6: the claim says every event other than a matching POST with a
non-empty body entry is ignored without crashing the run.  The code
panics on a POST to the SAML endpoint whose `PostDataEntries` slice is
non-nil but empty: the guard only checks `!= nil` and then evaluates
`request.PostDataEntries[0]`. -/
theorem c6_empty_entries_panics :
    matchesFilter emptyEntriesEvent = false ∧
    interceptChromeAuthRequest findNoRoleValues emptyEntriesEvent =
      InterceptEffect.crash := by
  constructor
  · rfl
  · rfl

/-- C7: when the decoded document has no attribute node matching the
federation role-claim URI, or the matching node has zero attribute-value
children, the selector yields no texts and the claims loop produces the
empty grant sequence with no error and no panic — distinguishable from a
parse failure. -/
theorem c7_no_grants_ok : parseRoleGrants [] = some [] := rfl

/-- C10: the `sts.AssumeRoleWithSAMLInput` built by `AssumeRoleWithSAML`
always carries `DurationSeconds = 3600 * 12 = 43200`, for every role,
principal and assertion — the requested lifetime is a constant of the
program. -/
theorem c10_fixed_duration :
    ∀ roleArn principalArn samlAssertion,
      (mkAssumeRoleWithSAMLInput roleArn principalArn samlAssertion).durationSeconds =
        43200 := by
  intro roleArn principalArn samlAssertion
  rfl

/-- C8: for a role whose ARN has at least five colon-delimited segments
and whose exchange succeeds, the orchestrator derives the account
identifier as the 5th colon-delimited segment of the role ARN and keys
the resulting credential-mapping entry by it. -/
theorem c8_account_id_key (exchange : AwsRole → Option AwsCredentialsEntry)
    (role : AwsRole) (entry : AwsCredentialsEntry) (accountId : List Nat)
    (hx : exchange role = some entry)
    (hseg : (splitOnSub role.roleArn (gostr ":")).get? 4 = some accountId) :
    deriveAccountId role.roleArn = some accountId ∧
    assumeRolesLoop exchange [role] [] = some [(accountId, entry)] := by
  have hd : deriveAccountId role.roleArn = some accountId := hseg
  refine ⟨hd, ?_⟩
  simp [assumeRolesLoop, hx, hd, mapSet]

/-- Witness for C8 at the role ARN of the specification scenario:
`arn:aws:iam::123456789012:role/Admin` yields account identifier
`123456789012` as the mapping key. -/
theorem c8_account_id_key_witness :
    deriveAccountId (gostr "arn:aws:iam::123456789012:role/Admin") =
      some (gostr "123456789012") ∧
    assumeRolesLoop
      (fun _ => some ⟨gostr "AK", gostr "SK", gostr "TOK", gostr "2024-01-01T00:00:00Z"⟩)
      [⟨gostr "arn:aws:iam::123456789012:role/Admin",
        gostr "arn:aws:iam::123456789012:saml-provider/AAD"⟩] [] =
      some [(gostr "123456789012",
        ⟨gostr "AK", gostr "SK", gostr "TOK", gostr "2024-01-01T00:00:00Z"⟩)] :=
  c8_account_id_key
    (fun _ => some ⟨gostr "AK", gostr "SK", gostr "TOK", gostr "2024-01-01T00:00:00Z"⟩)
    ⟨gostr "arn:aws:iam::123456789012:role/Admin",
      gostr "arn:aws:iam::123456789012:saml-provider/AAD"⟩
    ⟨gostr "AK", gostr "SK", gostr "TOK", gostr "2024-01-01T00:00:00Z"⟩
    (gostr "123456789012") rfl (by decide)

/-- C5: whenever the captured body decodes (outer base64 and URL decode)
to a body containing the marker followed by a payload, and that payload
is valid base64, the `samlResponse` string returned by
`ParseRolesFromSamlResponse` is the payload itself, byte for byte — it is
forwarded unchanged, not re-encoded. -/
theorem c5_assertion_forwarded (findRoleValues : List Nat → List (List Nat))
    (assertion s u pre payload xml : List Nat) (roles : List AwsRole)
    (h1 : base64StdDecode assertion = .ok s)
    (h2 : queryUnescapeCore s = .ok u)
    (h3 : splitOnSub u (gostr "SAMLResponse=") = [pre, payload])
    (h4 : base64StdDecode payload = .ok xml)
    (h5 : parseRoleGrants (findRoleValues xml) = some roles) :
    parseRolesFromSamlResponse findRoleValues assertion =
      ParseOutcome.ok roles payload := by
  simp [parseRolesFromSamlResponse, h1, h2, h3, h4, h5]

/-- Witness for C5 at a concrete capture: the outer body decodes to
`"SAMLResponse=PHgvPg=="` and the returned assertion string is exactly
`"PHgvPg=="`. -/
theorem c5_assertion_forwarded_witness :
    parseRolesFromSamlResponse findNoRoleValues goodBodyAssertion =
      ParseOutcome.ok [] (gostr "PHgvPg==") :=
  c5_assertion_forwarded findNoRoleValues goodBodyAssertion
    (gostr "SAMLResponse=PHgvPg==") (gostr "SAMLResponse=PHgvPg==")
    [] (gostr "PHgvPg==") (gostr "<x/>") []
    rfl rfl rfl rfl rfl

/-- C2 counterexample: the claim quantifies over every stream with two or
more filter-matching events and asserts exactly one delivered result; on
a stream of two matching events whose bodies are not valid base64, the
first match hits the `log.Fatalf` path and the run terminates with zero
results delivered. -/
theorem c2_two_matches_zero_delivered :
    matchesFilter badBodyEvent = true ∧
    (runCorrelator findNoRoleValues [badBodyEvent, badBodyEvent]).delivered.length = 0 ∧
    (runCorrelator findNoRoleValues [badBodyEvent, badBodyEvent]).terminated = true := by
  refine ⟨rfl, rfl, rfl⟩

/-- C2 (amended): over any stream whose events before the first match are
all ignored and whose first matching event decodes successfully, the
correlator delivers exactly that one result; cancellation detaches the
listener, so no later event — in particular no second matching event — is
processed, and the handoff is never signaled twice. -/
theorem c2_single_delivery (findRoleValues : List Nat → List (List Nat))
    (pre rest : List NetworkEvent) (m : NetworkEvent) (r : AWSResponse)
    (hpre : ∀ e ∈ pre, interceptChromeAuthRequest findRoleValues e = InterceptEffect.ignore)
    (hm : interceptChromeAuthRequest findRoleValues m = InterceptEffect.emit r)
    (hrest : ∃ e ∈ rest, matchesFilter e = true) :
    runCorrelator findRoleValues (pre ++ m :: rest) = ⟨true, [r], false⟩ := by
  unfold runCorrelator
  induction pre with
  | nil =>
    simp only [List.nil_append, driveEvents, hm]
    exact driveEvents_detached findRoleValues rest ⟨true, [r], false⟩ rfl rfl
  | cons e pre ih =>
    have he := hpre e (by simp)
    simp only [List.cons_append, driveEvents, he]
    exact ih (fun e2 he2 => hpre e2 (by simp [he2]))

/-- Witness for C2 (amended) on a stream of two matching events with a
valid body: exactly one result is delivered and the run is not
terminated abnormally. -/
theorem c2_single_delivery_witness :
    runCorrelator findNoRoleValues [goodEvent, goodEvent] =
      ⟨true, [⟨[], gostr "PHgvPg=="⟩], false⟩ :=
  c2_single_delivery findNoRoleValues [] [goodEvent] goodEvent ⟨[], gostr "PHgvPg=="⟩
    (by simp) (by decide) ⟨goodEvent, by simp, by decide⟩

/-- C3: for attribute-value node texts that are comma-separated pairs of
which exactly one token contains the role-path marker `":role/"`, the
claims loop returns exactly one grant per node in document order, with
the whitespace-trimmed marker-bearing token as the role identifier and
the trimmed other token as the principal identifier, whichever of the two
comes first. -/
theorem c3_grants_classified (values : List (List Nat))
    (h : ∀ v ∈ values, ∃ p0 p1, splitOnSub v (gostr ",") = [p0, p1] ∧
      (containsSub p0 (gostr ":role/") = true ↔ containsSub p1 (gostr ":role/") = false)) :
    ∃ grants, parseRoleGrants values = some grants ∧
      grants.length = values.length ∧
      ∀ i, i < values.length → ∀ p0 p1,
        splitOnSub (values.getD i []) (gostr ",") = [p0, p1] →
        (containsSub p0 (gostr ":role/") = true →
          grants.getD i ⟨[], []⟩ = ⟨trimSpaceGo p0, trimSpaceGo p1⟩) ∧
        (containsSub p1 (gostr ":role/") = true →
          grants.getD i ⟨[], []⟩ = ⟨trimSpaceGo p1, trimSpaceGo p0⟩) := by
  induction values with
  | nil =>
    refine ⟨[], rfl, rfl, ?_⟩
    intro i hi
    exact absurd hi (Nat.not_lt_zero i)
  | cons v vs ih =>
    obtain ⟨p0, p1, hsplit, hxor⟩ := h v (by simp)
    obtain ⟨gs, hgs, hlen, hidx⟩ := ih (fun w hw => h w (by simp [hw]))
    by_cases hc0 : containsSub p0 (gostr ":role/") = true
    · have hcv : classifyRoleValue v = some ⟨trimSpaceGo p0, trimSpaceGo p1⟩ := by
        simp [classifyRoleValue, hsplit, hc0]
      refine ⟨⟨trimSpaceGo p0, trimSpaceGo p1⟩ :: gs, ?_, by simp [hlen], ?_⟩
      · simp [parseRoleGrants, hcv, hgs]
      · intro i hi q0 q1 hq
        cases i with
        | zero =>
          rw [List.getD_cons_zero] at hq
          rw [hsplit] at hq
          simp only [List.cons.injEq, and_true] at hq
          obtain ⟨hq0, hq1⟩ := hq
          subst hq0
          subst hq1
          refine ⟨fun _ => by rw [List.getD_cons_zero], fun hq1c => ?_⟩
          rw [hxor.mp hc0] at hq1c
          cases hq1c
        | succ i =>
          rw [List.getD_cons_succ] at hq
          rw [List.getD_cons_succ]
          exact hidx i (by simpa using hi) q0 q1 hq
    · have hc1 : containsSub p1 (gostr ":role/") = true := by
        cases hb : containsSub p1 (gostr ":role/") with
        | true => rfl
        | false => exact absurd (hxor.mpr hb) hc0
      have hcv : classifyRoleValue v = some ⟨trimSpaceGo p1, trimSpaceGo p0⟩ := by
        simp [classifyRoleValue, hsplit, hc0]
      refine ⟨⟨trimSpaceGo p1, trimSpaceGo p0⟩ :: gs, ?_, by simp [hlen], ?_⟩
      · simp [parseRoleGrants, hcv, hgs]
      · intro i hi q0 q1 hq
        cases i with
        | zero =>
          rw [List.getD_cons_zero] at hq
          rw [hsplit] at hq
          simp only [List.cons.injEq, and_true] at hq
          obtain ⟨hq0, hq1⟩ := hq
          subst hq0
          subst hq1
          refine ⟨fun hq0c => absurd hq0c hc0, fun _ => by rw [List.getD_cons_zero]⟩
        | succ i =>
          rw [List.getD_cons_succ] at hq
          rw [List.getD_cons_succ]
          exact hidx i (by simpa using hi) q0 q1 hq

/-- Witness for C3 on two concrete attribute values, one with the role
token first and one with the role token second (and padded with
whitespace): both are classified correctly, in document order. -/
theorem c3_grants_classified_witness :
    ∃ grants, parseRoleGrants
        [gostr "arn:aws:iam::111:role/Admin,arn:aws:iam::111:saml-provider/AAD",
         gostr " arn:aws:iam::222:saml-provider/AAD , arn:aws:iam::222:role/Dev "] =
        some grants ∧
      grants.length = 2 ∧
      ∀ i, i < 2 → ∀ p0 p1,
        splitOnSub
          (List.getD
            [gostr "arn:aws:iam::111:role/Admin,arn:aws:iam::111:saml-provider/AAD",
             gostr " arn:aws:iam::222:saml-provider/AAD , arn:aws:iam::222:role/Dev "] i [])
          (gostr ",") = [p0, p1] →
        (containsSub p0 (gostr ":role/") = true →
          grants.getD i ⟨[], []⟩ = ⟨trimSpaceGo p0, trimSpaceGo p1⟩) ∧
        (containsSub p1 (gostr ":role/") = true →
          grants.getD i ⟨[], []⟩ = ⟨trimSpaceGo p1, trimSpaceGo p0⟩) :=
  c3_grants_classified
    [gostr "arn:aws:iam::111:role/Admin,arn:aws:iam::111:saml-provider/AAD",
     gostr " arn:aws:iam::222:saml-provider/AAD , arn:aws:iam::222:role/Dev "]
    (by
      intro v hv
      simp only [List.mem_cons, List.not_mem_nil, or_false] at hv
      rcases hv with rfl | rfl
      · exact ⟨gostr "arn:aws:iam::111:role/Admin",
          gostr "arn:aws:iam::111:saml-provider/AAD", by decide, by decide⟩
      · exact ⟨gostr " arn:aws:iam::222:saml-provider/AAD ",
          gostr " arn:aws:iam::222:role/Dev ", by decide, by decide⟩)

/-- C9 counterexample: the claim says every profile not named in the
mapping keeps its entry lines unchanged.  The read loop trims each entry
line, so the tab-indented line `"\tk=v"` of the unrelated profile `keep`
is present in the input but absent from the rewritten file (it has become
`"k=v"`). -/
theorem c9_entry_line_rewritten :
    (∀ pe ∈ c9Creds, pe.1 ≠ gostr "keep") ∧
    containsSub c9Content (gostr "\tk=v") = true ∧
    containsSub (updateAWSCredentialsFileContent c9Content c9Creds) (gostr "\tk=v") =
      false ∧
    containsSub (updateAWSCredentialsFileContent c9Content c9Creds)
      (gostr "[keep]\nk=v\n") = true := by
  refine ⟨by decide, rfl, ?_, ?_⟩ <;>
    · set_option maxRecDepth 4000 in decide

/-- C9 (amended): the read-merge-write preserves every profile whose name
is not a key of the incoming mapping up to per-line whitespace trimming:
the merge step leaves such a profile's parsed entries untouched, and the
written file still contains the profile header followed by exactly those
(trimmed) entry lines; only profiles named in the mapping have their
entries replaced. -/
theorem c9_profiles_preserved (content : List Nat)
    (credentials : List (List Nat × AwsCredentialsEntry)) (p : List Nat)
    (es : List (List Nat))
    (hp : ∀ pe ∈ credentials, pe.1 ≠ p)
    (hl : mapLookup (parseProfilesContent content) p = some es) :
    mapLookup (mergeCredentials (parseProfilesContent content) credentials) p =
      some es ∧
    containsSub (updateAWSCredentialsFileContent content credentials)
      (gostr "[" ++ p ++ gostr "]\n" ++ (es.map (fun e => e ++ gostr "\n")).flatten) =
      true := by
  have hm : mapLookup (mergeCredentials (parseProfilesContent content) credentials) p =
      some es := by
    rw [mergeCredentials_lookup_ne _ _ _ hp]
    exact hl
  refine ⟨hm, ?_⟩
  obtain ⟨m1, m2, hdec⟩ := mapLookup_decomp _ _ _ hm
  unfold updateAWSCredentialsFileContent
  rw [hdec, serializeProfiles_append]
  have hser : serializeProfiles ((p, es) :: m2) =
      (gostr "[" ++ p ++ gostr "]\n" ++ (es.map (fun e => e ++ gostr "\n")).flatten) ++
        serializeProfiles m2 := by
    simp [serializeProfiles]
  rw [hser]
  apply containsSub_append_left
  apply containsSub_append_right
  exact containsSub_self _

/-- Witness for C9 (amended) on the concrete file: the unrelated profile
`keep` survives the merge with its trimmed entry line and reappears as a
section of the written file. -/
theorem c9_profiles_preserved_witness :
    mapLookup (mergeCredentials (parseProfilesContent c9Content) c9Creds)
      (gostr "keep") = some [gostr "k=v"] ∧
    containsSub (updateAWSCredentialsFileContent c9Content c9Creds)
      (gostr "[" ++ gostr "keep" ++ gostr "]\n" ++
        (([gostr "k=v"]).map (fun e => e ++ gostr "\n")).flatten) = true :=
  c9_profiles_preserved c9Content c9Creds (gostr "keep") [gostr "k=v"]
    (by decide) (by decide)

theorem containsSub_mid (a mid b pat : List Nat) (h : containsSub mid pat = true) :
    containsSub (a ++ (mid ++ b)) pat = true :=
  containsSub_append_left a (mid ++ b) pat (containsSub_append_right mid b pat h)

set_option maxRecDepth 40000 in
/-- C4: for every tenant identifier (and every fresh request id and
timestamp), `GenerateSAMLLoginURL` produces
`https://login.microsoftonline.com/{tenant}/saml2?SAMLRequest={escaped}`,
and URL-unescaping, base64-decoding and raw-inflating the `SAMLRequest`
parameter recovers the authentication-request XML containing
`AssertionConsumerServiceURL="https://signin.aws.amazon.com/saml"` —
base64-decode-then-inflate is a left inverse of the
deflate-then-base64-then-escape encoding used, for every deflate/inflate
pair that round-trips byte strings (as Go's raw `compress/flate` pair
does). -/
theorem c4_login_url_roundtrip (deflate : List Nat → List Nat)
    (inflate : List Nat → Option (List Nat))
    (hinv : ∀ bs, inflate (deflate bs) = some bs)
    (hbytes : ∀ bs, (∀ b ∈ bs, b < 256) → ∀ b ∈ deflate bs, b < 256)
    (id now tenantId : List Nat)
    (hid : ∀ b ∈ id, b < 256) (hnow : ∀ b ∈ now, b < 256) :
    ∃ payload,
      generateSAMLLoginURL deflate id now awsSamlEndpoint tenantId awsSamlEndpoint =
        gostr "https://login.microsoftonline.com/" ++ tenantId ++
          gostr "/saml2?SAMLRequest=" ++ queryEscapeGo payload ∧
      queryUnescapeCore (queryEscapeGo payload) = .ok payload ∧
      base64StdDecode payload =
        .ok (deflate (samlRequestXML id now awsSamlEndpoint awsSamlEndpoint)) ∧
      inflate (deflate (samlRequestXML id now awsSamlEndpoint awsSamlEndpoint)) =
        some (samlRequestXML id now awsSamlEndpoint awsSamlEndpoint) ∧
      containsSub (samlRequestXML id now awsSamlEndpoint awsSamlEndpoint)
        (gostr "AssertionConsumerServiceURL=\"https://signin.aws.amazon.com/saml\"") =
        true := by
  have hxml : ∀ b ∈ samlRequestXML id now awsSamlEndpoint awsSamlEndpoint, b < 256 := by
    intro b hb
    simp only [samlRequestXML, List.append_assoc, List.mem_append] at hb
    have hl1 : ∀ b ∈ gostr "\n        <samlp:AuthnRequest xmlns=\"urn:oasis:names:tc:SAML:2.0:metadata\" ID=\"id", b < 256 := by decide
    have hl2 : ∀ b ∈ gostr "\" Version=\"2.0\" IssueInstant=\"", b < 256 := by decide
    have hl3 : ∀ b ∈ gostr "\" IsPassive=\"false\" AssertionConsumerServiceURL=\"", b < 256 := by decide
    have hl4 : ∀ b ∈ gostr "\" xmlns:samlp=\"urn:oasis:names:tc:SAML:2.0:protocol\">\n            <Issuer xmlns=\"urn:oasis:names:tc:SAML:2.0:assertion\">", b < 256 := by decide
    have hl5 : ∀ b ∈ gostr "</Issuer>\n            <samlp:NameIDPolicy Format=\"urn:oasis:names:tc:SAML:1.1:nameid-format:emailAddress\"></samlp:NameIDPolicy>\n        </samlp:AuthnRequest>\n        ", b < 256 := by decide
    have hep : ∀ b ∈ awsSamlEndpoint, b < 256 := by decide
    rcases hb with hb | hb | hb | hb | hb | hb | hb | hb | hb
    · exact hl1 b hb
    · exact hid b hb
    · exact hl2 b hb
    · exact hnow b hb
    · exact hl3 b hb
    · exact hep b hb
    · exact hl4 b hb
    · exact hep b hb
    · exact hl5 b hb
  refine ⟨base64StdEncode (deflate (samlRequestXML id now awsSamlEndpoint awsSamlEndpoint)),
    rfl, ?_, ?_, hinv _, ?_⟩
  · exact queryEscape_roundtrip _ (b64Encode_bytes _)
  · exact base64_roundtrip _ (hbytes _ hxml)
  · have heq : samlRequestXML id now awsSamlEndpoint awsSamlEndpoint =
        (gostr "\n        <samlp:AuthnRequest xmlns=\"urn:oasis:names:tc:SAML:2.0:metadata\" ID=\"id" ++
          (id ++ (gostr "\" Version=\"2.0\" IssueInstant=\"" ++ now))) ++
        ((gostr "\" IsPassive=\"false\" AssertionConsumerServiceURL=\"" ++
            awsSamlEndpoint ++
            gostr "\" xmlns:samlp=\"urn:oasis:names:tc:SAML:2.0:protocol\">\n            <Issuer xmlns=\"urn:oasis:names:tc:SAML:2.0:assertion\">") ++
          (awsSamlEndpoint ++
            gostr "</Issuer>\n            <samlp:NameIDPolicy Format=\"urn:oasis:names:tc:SAML:1.1:nameid-format:emailAddress\"></samlp:NameIDPolicy>\n        </samlp:AuthnRequest>\n        ")) := by
      simp [samlRequestXML, List.append_assoc]
    rw [heq]
    apply containsSub_mid
    set_option maxRecDepth 40000 in decide

/-- Witness for C4 at the specification scenario `"contoso-tenant"`, with
the identity deflate/inflate pair (which round-trips byte strings, as the
real raw-deflate/raw-inflate pair does). -/
theorem c4_login_url_roundtrip_witness :
    ∃ payload,
      generateSAMLLoginURL (fun bs => bs) (gostr "X") (gostr "2024-01-01T00:00:00Z")
          awsSamlEndpoint (gostr "contoso-tenant") awsSamlEndpoint =
        gostr "https://login.microsoftonline.com/" ++ gostr "contoso-tenant" ++
          gostr "/saml2?SAMLRequest=" ++ queryEscapeGo payload ∧
      queryUnescapeCore (queryEscapeGo payload) = .ok payload ∧
      base64StdDecode payload =
        .ok ((fun bs => bs)
          (samlRequestXML (gostr "X") (gostr "2024-01-01T00:00:00Z")
            awsSamlEndpoint awsSamlEndpoint)) ∧
      (fun bs => some bs)
        ((fun bs => bs)
          (samlRequestXML (gostr "X") (gostr "2024-01-01T00:00:00Z")
            awsSamlEndpoint awsSamlEndpoint)) =
        some (samlRequestXML (gostr "X") (gostr "2024-01-01T00:00:00Z")
          awsSamlEndpoint awsSamlEndpoint) ∧
      containsSub
        (samlRequestXML (gostr "X") (gostr "2024-01-01T00:00:00Z")
          awsSamlEndpoint awsSamlEndpoint)
        (gostr "AssertionConsumerServiceURL=\"https://signin.aws.amazon.com/saml\"") =
        true :=
  c4_login_url_roundtrip (fun bs => bs) (fun bs => some bs)
    (fun _ => rfl) (fun _ h => h)
    (gostr "X") (gostr "2024-01-01T00:00:00Z") (gostr "contoso-tenant")
    (by decide) (by decide)

end CloudAuthN
